import Mathlib

/-!
A verification development for the `ca$h` shell (`cash.c`): a shallow
embedding of its command-line parsing, pipeline dispatch, and job-table
management, with theorems checking the natural-language specification
against the embedded code.

Strings from the C source are modelled as `List Char`; the job table
(a fixed array of 32 `job_t` slots) is modelled as a `List job_t` of
length 32, scanned front to back exactly as the C `for` loops do.
Operating-system effects (fork, kill, chdir, strdup, waitpid) are
modelled by explicit parameters carrying their outcome and by lists of
output/action events.
-/

namespace Cash

/-- MAX_ARGS from cash.c. -/
def MAX_ARGS : Nat := 100

/-- MAX_JOBS from cash.c. -/
def MAX_JOBS : Nat := 32

/-- The whitespace set " \t\n\r" used by `execute_pipeline` for trailing
trim and for the blank-line check (`strspn(input, " \t\n\r")`). -/
def wsDelim : List Char := [' ', '\t', '\n', '\r']

/-- The `strtok` delimiter set " \t\n\r\a" used by `parse_command`. -/
def tokDelim : List Char := [' ', '\t', '\n', '\r', '\x07']

/-- The delimiter set " \t\n\r\a|" used in `execute_pipeline` to extract
the first command token for the built-in check. -/
def tokDelimPipe : List Char := [' ', '\t', '\n', '\r', '\x07', '|']

/-- Accumulator-based tokenizer: `strtok`-style splitting on a delimiter
set, dropping empty tokens.  `cur` holds the current token reversed. -/
def tokenizeAux (d : List Char) (cur : List Char) : List Char → List (List Char)
  | [] => if cur = [] then [] else [cur.reverse]
  | c :: cs =>
    if c ∈ d then
      if cur = [] then tokenizeAux d [] cs else cur.reverse :: tokenizeAux d [] cs
    else tokenizeAux d (c :: cur) cs

/-- Split a line into `strtok` tokens over delimiter set `d`. -/
def tokenize (d : List Char) (s : List Char) : List (List Char) :=
  tokenizeAux d [] s

/-- Strip trailing characters belonging to `d` (the `while (end >= input
&& ...) *end-- = 0` trimming loops of `execute_pipeline`). -/
def rstripSet (d : List Char) (s : List Char) : List Char :=
  (s.reverse.dropWhile (fun c => decide (c ∈ d))).reverse

/-- Background detection of `execute_pipeline` (lines 757-761): trim
trailing " \t\n\r"; if the last remaining character is `&`, set the
background flag, drop the `&`, and trim trailing spaces and tabs.
Returns the remaining line and the background flag. -/
def stripBackground (s : List Char) : List Char × Bool :=
  let t := rstripSet wsDelim s
  match t.getLast? with
  | some c => if c = '&' then (rstripSet [' ', '\t'] t.dropLast, true) else (t, false)
  | none => (t, false)

/-- Whether every character of `s` lies in `d`; `allIn wsDelim s` is the
blank-line test `input[strspn(input, " \t\n\r")] == 0`. -/
def allIn (d : List Char) (s : List Char) : Bool :=
  s.all (fun c => decide (c ∈ d))

/-- The `strchr(input, '|')` pipe split: find the first `|` character
anywhere in the line (token boundaries are irrelevant) and split there. -/
def splitPipe : List Char → Option (List Char × List Char)
  | [] => none
  | c :: cs =>
    if c = '|' then some ([], cs)
    else (splitPipe cs).map (fun p => (c :: p.1, p.2))

/-- First token of the line under the " \t\n\r\a|" delimiters, used by
`execute_pipeline` for its built-in check. -/
def firstTok (s : List Char) : Option (List Char) :=
  (tokenize tokDelimPipe s).head?

/-- The six built-in command names dispatched by the shell. -/
def builtinNames : List (List Char) :=
  ["jobs".toList, "fg".toList, "bg".toList, "exit".toList, "cd".toList, "clear".toList]

/-- Whether an optional token is one of the six built-in names. -/
def isBuiltinTok : Option (List Char) → Bool
  | none => false
  | some t => decide (t ∈ builtinNames)

/-- The `strchr("<>|&", token[0])` filename sanity check of
`parse_command`: does the token start with an operator character? -/
def opHeadChar (t : List Char) : Bool :=
  match t.head? with
  | some c => decide (c ∈ ['<', '>', '|', '&'])
  | none => false

/-- Result of `parse_command`: a parsed command, a blank command, or one
of its syntax errors (each C error path returns 0). -/
inductive ParseResult
  | emptyCmd
  | synErrRedirIn
  | synErrRedirOut
  | synErrRedirNoCmd
  | parsed (args : List (List Char)) (inF : Option (List Char)) (outF : Option (List Char))
deriving DecidableEq

/-- The code after `parse_command`'s token loop: reject redirection
without a command word; report blank; otherwise return the command. -/
def parseFinish (args : List (List Char)) (inF outF : Option (List Char)) : ParseResult :=
  if args = [] then
    if inF ≠ none ∨ outF ≠ none then .synErrRedirNoCmd else .emptyCmd
  else .parsed args inF outF

/-- The token walk of `parse_command`: while a token remains and fewer
than MAX_ARGS-1 arguments are stored, treat a standalone `<` or `>` as a
redirection (consuming the following token as the filename, rejecting a
missing filename or one starting with an operator character), and append
any other token to the argument list. -/
def parseLoop : List (List Char) → Nat → List (List Char) →
    Option (List Char) → Option (List Char) → ParseResult
  | [], _, args, inF, outF => parseFinish args inF outF
  | t :: ts, i, args, inF, outF =>
    if MAX_ARGS - 1 ≤ i then parseFinish args inF outF
    else if t = ['<'] then
      match ts with
      | [] => .synErrRedirIn
      | u :: us => if opHeadChar u then .synErrRedirIn else parseLoop us i args (some u) outF
    else if t = ['>'] then
      match ts with
      | [] => .synErrRedirOut
      | u :: us => if opHeadChar u then .synErrRedirOut else parseLoop us i args inF (some u)
    else parseLoop ts (i + 1) (args ++ [t]) inF outF

/-- parse_command from cash.c: tokenize on " \t\n\r\a" and walk the
tokens collecting arguments and redirections. -/
def parse_command (s : List Char) : ParseResult :=
  parseLoop (tokenize tokDelim s) 0 [] none none

/-- What `execute_pipeline` decides to do with a line, after background
stripping: nothing (blank), a single command handed to
`execute_single_command` (which dispatches built-ins by the first
argument and forks otherwise), a rejected built-in-in-pipeline, one of
the pipe syntax errors, or a two-child pipeline. -/
inductive Decision
  | blank
  | parseFailSingle (r : ParseResult)
  | singleCommand (args : List (List Char)) (inF outF : Option (List Char)) (bg : Bool)
  | builtinPipeErr (tok : List Char)
  | missingCmdBeforePipe
  | missingCmdAfterPipe
  | parseFailPipe
  | runPipe (args1 : List (List Char)) (inF1 : Option (List Char))
      (args2 : List (List Char)) (outF2 : Option (List Char)) (bg : Bool)
deriving DecidableEq

/-- The control flow of `execute_pipeline`: strip the background `&`;
return on a blank line; compute the built-in flag from the first token
(delimiters " \t\n\r\a|"); find the first `|` with `strchr`.  With no
pipe, parse and hand to `execute_single_command` (lines 780-793, whose
two no-pipe branches are identical).  With a pipe, reject when the first
token is a built-in; reject a blank side; parse both sides; otherwise
fork the two children (left keeps only its input redirection, right only
its output redirection). -/
def execPipelineDecision (s0 : List Char) : Decision :=
  let sb := stripBackground s0
  let s := sb.1
  let bg := sb.2
  if allIn wsDelim s then .blank
  else
    let isb := isBuiltinTok (firstTok s)
    match splitPipe s with
    | none =>
      match parse_command s with
      | .parsed args inF outF => .singleCommand args inF outF bg
      | r => .parseFailSingle r
    | some (c1, c2) =>
      if isb then .builtinPipeErr ((firstTok s).getD [])
      else if allIn wsDelim c1 then .missingCmdBeforePipe
      else if allIn wsDelim c2 then .missingCmdAfterPipe
      else
        match parse_command c1, parse_command c2 with
        | .parsed a1 i1 _o1, .parsed a2 _i2 o2 => .runPipe a1 i1 a2 o2 bg
        | _, _ => .parseFailPipe

/-- Number of `fork()` calls the shell itself performs for a decision:
two for a pipeline, one for a single non-built-in command, none
otherwise (built-ins are dispatched in-process by
`execute_single_command`). -/
def forkCount : Decision → Nat
  | .singleCommand args _ _ _ => if isBuiltinTok args.head? then 0 else 1
  | .runPipe _ _ _ _ _ => 2
  | _ => 0

/-- job_state_t from cash.c. -/
inductive job_state_t
  | JOB_STATE_INVALID
  | JOB_STATE_RUNNING
  | JOB_STATE_STOPPED
deriving DecidableEq

/-- job_t from cash.c.  `command = none` models a NULL `char *`;
`notified` models the C int used as a boolean. -/
structure job_t where
  jid : Nat
  pgid : Int
  state : job_state_t
  command : Option String
  notified : Bool
deriving DecidableEq

/-- A free slot: zero-initialised globals with `state` INVALID and a
NULL command, the value produced by `init_jobs` and by slot removal. -/
def emptyJob : job_t :=
  { jid := 0, pgid := 0, state := .JOB_STATE_INVALID, command := none, notified := false }

/-- The shell's job-control globals: the `job_list` array (length
MAX_JOBS, scanned front to back) and the `next_jid` counter. -/
structure ShellJobs where
  job_list : List job_t
  next_jid : Nat
deriving DecidableEq

/-- State after `init_jobs()`: all 32 slots free, `next_jid = 1`. -/
def initShellJobs : ShellJobs :=
  { job_list := List.replicate MAX_JOBS emptyJob, next_jid := 1 }

/-- User-visible output produced by the job-control code paths modelled
here, one constructor per `printf`/`fprintf`/`perror` call site. -/
inductive OutEvent
  | errMaxJobs
  | errJobAlloc
  | bgLaunchLine (jid : Nat) (pgid : Int)
  | bgResumeLine (jid : Nat) (command : Option String)
  | bgAlreadyRunning (jid : Nat)
  | errKillSigcont
  | sigcontSent (pgid : Int)
  | errNoSuchJobBg (jid : Nat)
  | doneLine (jid : Nat) (command : Option String)
  | stoppedLine (jid : Nat) (command : Option String)
  | warnCdRedirect
  | errCdHomeUnset
  | errCdTooMany
  | errCdFailed
deriving DecidableEq

/-- Which events go to standard error (fprintf(stderr, ...) or perror)
rather than standard output (printf). -/
def onStderr : OutEvent → Bool
  | .errMaxJobs => true
  | .errJobAlloc => true
  | .bgLaunchLine _ _ => false
  | .bgResumeLine _ _ => false
  | .bgAlreadyRunning _ => false
  | .errKillSigcont => true
  | .sigcontSent _ => false
  | .errNoSuchJobBg _ => true
  | .doneLine _ _ => false
  | .stoppedLine _ _ => false
  | .warnCdRedirect => true
  | .errCdHomeUnset => true
  | .errCdTooMany => true
  | .errCdFailed => true

/-- Write job `nj` into the first slot whose state is INVALID (the scan
of `find_free_job_slot`); `none` when no slot is free. -/
def placeInFirstFree (nj : job_t) : List job_t → Option (List job_t)
  | [] => none
  | j :: js =>
    if j.state = .JOB_STATE_INVALID then some (nj :: js)
    else (placeInFirstFree nj js).map (fun l => j :: l)

/-- add_job from cash.c.  Fails on `pgid <= 0`; fails with the
max-jobs message when no slot is free; otherwise fills the free slot
(jid from `next_jid++`, `notified` true exactly for a RUNNING job) and
duplicates the command.  `strdup_ok` carries the outcome of `strdup`:
on failure the slot's state is rolled back to INVALID and the call
fails.  Returns the new state, the assigned jid (or `none` for -1),
and the output events. -/
def add_job (s : ShellJobs) (pgid : Int) (cmd : String) (st : job_state_t)
    (strdup_ok : Bool) : ShellJobs × Option Nat × List OutEvent :=
  if pgid ≤ 0 then (s, none, [])
  else
    let dup : Option String := if strdup_ok then some cmd else none
    let nj0 : job_t :=
      { jid := s.next_jid, pgid := pgid, state := st, command := dup,
        notified := decide (st = .JOB_STATE_RUNNING) }
    let nj : job_t := if dup = none then { nj0 with state := .JOB_STATE_INVALID } else nj0
    match placeInFirstFree nj s.job_list with
    | none => (s, none, [.errMaxJobs])
    | some l =>
      if strdup_ok then (⟨l, s.next_jid + 1⟩, some s.next_jid, [])
      else (⟨l, s.next_jid + 1⟩, none, [.errJobAlloc])

/-- Free the first non-INVALID slot whose pgid matches (the scan of
`find_job_slot_by_pgid` followed by the field resets of
`remove_job_by_pgid`); the Bool is the 1/0 return value. -/
def removeFirst (pgid : Int) : List job_t → List job_t × Bool
  | [] => ([], false)
  | j :: js =>
    if j.state ≠ .JOB_STATE_INVALID ∧ j.pgid = pgid then (emptyJob :: js, true)
    else
      let r := removeFirst pgid js
      (j :: r.1, r.2)

/-- remove_job_by_pgid from cash.c. -/
def remove_job_by_pgid (s : ShellJobs) (pgid : Int) : ShellJobs × Bool :=
  let r := removeFirst pgid s.job_list
  (⟨r.1, s.next_jid⟩, r.2)

/-- The scan of `find_job_slot_by_jid` (first non-INVALID slot with this
jid), dereferenced as in `get_job_by_jid`. -/
def get_job_by_jid_list (jid : Nat) : List job_t → Option job_t
  | [] => none
  | j :: js =>
    if j.state ≠ .JOB_STATE_INVALID ∧ j.jid = jid then some j
    else get_job_by_jid_list jid js

/-- get_job_by_jid from cash.c. -/
def get_job_by_jid (s : ShellJobs) (jid : Nat) : Option job_t :=
  get_job_by_jid_list jid s.job_list

/-- The scan of `find_job_slot_by_pgid`, dereferenced as in
`get_job_by_pgid`. -/
def get_job_by_pgid_list (pgid : Int) : List job_t → Option job_t
  | [] => none
  | j :: js =>
    if j.state ≠ .JOB_STATE_INVALID ∧ j.pgid = pgid then some j
    else get_job_by_pgid_list pgid js

/-- get_job_by_pgid from cash.c. -/
def get_job_by_pgid (s : ShellJobs) (pgid : Int) : Option job_t :=
  get_job_by_pgid_list pgid s.job_list

/-- Write back a job through the pointer returned by `get_job_by_jid`:
replace the first non-INVALID slot carrying this jid. -/
def updateByJid (jid : Nat) (nj : job_t) : List job_t → List job_t
  | [] => []
  | j :: js =>
    if j.state ≠ .JOB_STATE_INVALID ∧ j.jid = jid then nj :: js
    else j :: updateByJid jid nj js

/-- Apply `f` through the pointer returned by `get_job_by_pgid`: modify
the first non-INVALID slot carrying this pgid. -/
def mapFirstActive (pgid : Int) (f : job_t → job_t) : List job_t → List job_t
  | [] => []
  | j :: js =>
    if j.state ≠ .JOB_STATE_INVALID ∧ j.pgid = pgid then f j :: js
    else j :: mapFirstActive pgid f js

/-- The `handle_sigchld` update for a reaped child of group `pgid` whose
status says exited or killed: the tracked job's slot is marked INVALID
with `notified = 0`, keeping the command string for the Done sweep. -/
def sigchld_mark_exited (s : ShellJobs) (pgid : Int) : ShellJobs :=
  ⟨mapFirstActive pgid
      (fun j => { j with state := .JOB_STATE_INVALID, notified := false }) s.job_list,
    s.next_jid⟩

/-- The `handle_sigchld` update for a stopped child of group `pgid`:
set state STOPPED and `notified = 0` unless already both. -/
def sigchld_mark_stopped (s : ShellJobs) (pgid : Int) : ShellJobs :=
  ⟨mapFirstActive pgid
      (fun j =>
        if j.state ≠ .JOB_STATE_STOPPED ∨ j.notified = false then
          { j with state := .JOB_STATE_STOPPED, notified := false }
        else j) s.job_list,
    s.next_jid⟩

/-- One slot of `check_jobs_status`: a Done-pending slot (INVALID state,
command still present, unnotified) prints its Done line and is cleaned;
an unnotified STOPPED slot prints its Stopped line and is marked
notified. -/
def drainSlot (j : job_t) : job_t × List OutEvent :=
  if j.state = .JOB_STATE_INVALID ∧ j.command ≠ none ∧ j.notified = false then
    ({ j with command := none, notified := true, jid := 0, pgid := 0 },
      [.doneLine j.jid j.command])
  else if j.state = .JOB_STATE_STOPPED ∧ j.notified = false then
    ({ j with notified := true }, [.stoppedLine j.jid j.command])
  else (j, [])

/-- The slot sweep of `check_jobs_status`. -/
def drainAll : List job_t → List job_t × List OutEvent
  | [] => ([], [])
  | j :: js =>
    let d := drainSlot j
    let r := drainAll js
    (d.1 :: r.1, d.2 ++ r.2)

/-- check_jobs_status from cash.c (the leading blank line before the
first notification of a batch is not modelled). -/
def check_jobs_status (s : ShellJobs) : ShellJobs × List OutEvent :=
  let r := drainAll s.job_list
  (⟨r.1, s.next_jid⟩, r.2)

/-- put_job_in_background from cash.c, acting on the job a caller's
pointer designates.  `kill_ok` carries the outcome of
`kill(-pgid, SIGCONT)`: on failure the state is reverted to STOPPED. -/
def put_job_in_background (j : job_t) (cont : Bool) (kill_ok : Bool) :
    job_t × List OutEvent :=
  if j.state = .JOB_STATE_INVALID then (j, [])
  else if j.state = .JOB_STATE_RUNNING then (j, [.bgAlreadyRunning j.jid])
  else
    let j1 : job_t := { j with state := .JOB_STATE_RUNNING, notified := true }
    if cont then
      if kill_ok then (j1, [.sigcontSent j.pgid])
      else ({ j1 with state := .JOB_STATE_STOPPED }, [.errKillSigcont])
    else (j1, [])

/-- The `bg` branch of `execute_single_command` (lines 681-688), after
the `%<jid>` argument has been validated and converted: look the job up
by jid; if absent report; otherwise print the "[jid] cmd &" line and
then call `put_job_in_background(job, 1)`, whose in-place update lands
in the job's table slot. -/
def bg_builtin (s : ShellJobs) (jid : Nat) (kill_ok : Bool) :
    ShellJobs × List OutEvent :=
  match get_job_by_jid s jid with
  | none => (s, [.errNoSuchJobBg jid])
  | some j =>
    let r := put_job_in_background j true kill_ok
    (⟨updateByJid jid r.1 s.job_list, s.next_jid⟩, .bgResumeLine j.jid j.command :: r.2)

/-- Why the blocking `waitpid(-pgid, &status, WUNTRACED)` of
`wait_for_job` returned. -/
inductive WaitOutcome
  | exited
  | signaled
  | stopped
  | errECHILD
  | errOther
deriving DecidableEq

/-- wait_for_job from cash.c when the `job_t *` argument points at the
transient stack struct built by `execute_single_command`'s foreground
path (not at a table slot): the WIFSTOPPED update writes the transient
struct only, while `remove_job_by_pgid` still acts on the table (where
the pgid is simply not found).  Terminal handoff is not modelled. -/
def wait_for_job_transient (s : ShellJobs) (fg : job_t) (w : WaitOutcome) :
    ShellJobs × job_t :=
  if fg.pgid ≤ 0 ∨ fg.state = .JOB_STATE_INVALID then (s, fg)
  else
    match w with
    | .exited => ((remove_job_by_pgid s fg.pgid).1, fg)
    | .signaled => ((remove_job_by_pgid s fg.pgid).1, fg)
    | .stopped => (s, { fg with state := .JOB_STATE_STOPPED, notified := false })
    | .errECHILD => ((remove_job_by_pgid s fg.pgid).1, fg)
    | .errOther => ((remove_job_by_pgid s fg.pgid).1, fg)

/-- put_job_in_foreground from cash.c on the transient foreground
struct, in an interactive shell: mark it RUNNING and notified, hand the
terminal over (not modelled), optionally SIGCONT (the foreground-launch
path passes cont = 0), and wait. -/
def put_job_in_foreground_transient (s : ShellJobs) (fg : job_t) (cont : Bool)
    (w : WaitOutcome) : ShellJobs × job_t :=
  if fg.state = .JOB_STATE_INVALID then (s, fg)
  else
    let fg1 : job_t := { fg with state := .JOB_STATE_RUNNING, notified := true }
    let _ := cont
    wait_for_job_transient s fg1 w

/-- The foreground branch of `execute_single_command` (lines 724-736) in
an interactive shell: build the transient job {jid 0, pgid, RUNNING,
command copy}, run `put_job_in_foreground(&fg_job, 0)`, free the copy,
and return; only the resulting job table is observable afterwards. -/
def fg_command_wait (s : ShellJobs) (child_pgid : Int) (cmd : String)
    (w : WaitOutcome) : ShellJobs :=
  (put_job_in_foreground_transient s
      { jid := 0, pgid := child_pgid, state := .JOB_STATE_RUNNING,
        command := some cmd, notified := false } false w).1

/-- Result of launching one external background command. -/
structure LaunchResult where
  forked : Bool
  jobs : ShellJobs
  events : List OutEvent
deriving DecidableEq

/-- The background branch of `execute_single_command` (lines 691-723)
for an external command: `fork()` runs first and unconditionally (here
assumed to succeed, so a child exists); the parent then — only when
interactive with a positive child pgid — calls `add_job` and announces
"[jid] pgid" when the add succeeded. -/
def background_launch (s : ShellJobs) (interactive : Bool) (child_pgid : Int)
    (cmd : String) (strdup_ok : Bool) : LaunchResult :=
  let r := add_job s child_pgid cmd .JOB_STATE_RUNNING strdup_ok
  if interactive ∧ 0 < child_pgid then
    match r.2.1 with
    | some jid => ⟨true, r.1, r.2.2 ++ [.bgLaunchLine jid child_pgid]⟩
    | none => ⟨true, r.1, r.2.2⟩
  else ⟨true, s, []⟩

/-- Actions the parent takes in `execute_pipeline` when the second fork
of a pipeline fails (lines 840-846). -/
inductive CleanupAct
  | closeReadEnd
  | closeWriteEnd
  | killGroup (pgid : Int)
  | reapFirstChild
deriving DecidableEq

/-- The second-fork-failure path of `execute_pipeline`: close both pipe
ends; send SIGKILL to the pipeline group only when the pgid is positive
and the shell is interactive; then `waitpid` the first child. -/
def pipeline_fork2_fail_cleanup (shell_is_interactive : Bool)
    (pipeline_pgid : Int) : List CleanupAct :=
  [.closeReadEnd, .closeWriteEnd] ++
    (if 0 < pipeline_pgid ∧ shell_is_interactive = true then
      [.killGroup pipeline_pgid] else []) ++
    [.reapFirstChild]

/-- The `cd` branch of `execute_single_command` (lines 656-664).
`args` is the argument vector (head "cd"), `home` the value of
`getenv("HOME")`, `cwd` the current working directory, and `chdir_ok`
the outcome of `chdir` per target.  A successful `chdir d` makes `d`
the working directory. -/
def cd_builtin (args : List String) (home : Option String) (cwd : String)
    (chdir_ok : String → Bool) (inputFile outputFile : Option String) :
    String × List OutEvent :=
  let warn : List OutEvent :=
    if inputFile ≠ none ∨ outputFile ≠ none then [.warnCdRedirect] else []
  match args.get? 1 with
  | none =>
    match home with
    | none => (cwd, warn ++ [.errCdHomeUnset])
    | some h => if chdir_ok h then (h, warn) else (cwd, warn ++ [.errCdFailed])
  | some d =>
    if (args.get? 2).isSome then (cwd, warn ++ [.errCdTooMany])
    else if chdir_ok d then (d, warn) else (cwd, warn ++ [.errCdFailed])

/-- One main-thread or signal-context operation on the job table. -/
inductive JobOp
  | add (pgid : Int) (cmd : String) (st : job_state_t) (strdup_ok : Bool)
  | remove (pgid : Int)
  | markExited (pgid : Int)
  | markStopped (pgid : Int)
  | drain

/-- Apply one `JobOp`, returning the new state and the jid assigned by a
successful `add_job` (if any). -/
def jobStep (s : ShellJobs) : JobOp → ShellJobs × Option Nat
  | .add pgid cmd st ok => let r := add_job s pgid cmd st ok; (r.1, r.2.1)
  | .remove pgid => ((remove_job_by_pgid s pgid).1, none)
  | .markExited pgid => (sigchld_mark_exited s pgid, none)
  | .markStopped pgid => (sigchld_mark_stopped s pgid, none)
  | .drain => ((check_jobs_status s).1, none)

/-- Run a sequence of job-table operations, collecting the assigned jids
in order of assignment. -/
def runOps (s : ShellJobs) : List JobOp → ShellJobs × List Nat
  | [] => (s, [])
  | op :: ops =>
    let r := jobStep s op
    let rest := runOps r.1 ops
    (rest.1, r.2.toList ++ rest.2)

/-- The command-string invariant: every slot in a live (non-INVALID)
state holds a command string. -/
def JobsInv (l : List job_t) : Prop :=
  ∀ j ∈ l, j.state ≠ .JOB_STATE_INVALID → j.command ≠ none

/-- Number of live (Running or Stopped) slots. -/
def activeCount (l : List job_t) : Nat :=
  l.countP (fun j => decide (j.state ≠ .JOB_STATE_INVALID))

/-- A running background job occupying one slot, for concrete tables. -/
def busyJob : job_t :=
  { jid := 1, pgid := 50, state := .JOB_STATE_RUNNING,
    command := some "sleep 1000", notified := true }

/-- A table whose 32 slots are all occupied by Running jobs. -/
def fullJobs : ShellJobs :=
  { job_list := List.replicate MAX_JOBS busyJob, next_jid := 33 }

/-- A stopped job sitting in the first slot, for concrete tables. -/
def stoppedJob : job_t :=
  { jid := 1, pgid := 70, state := .JOB_STATE_STOPPED,
    command := some "sleep 9", notified := true }

/-- A table holding one stopped job. -/
def oneStoppedJobs : ShellJobs :=
  { job_list := stoppedJob :: List.replicate (MAX_JOBS - 1) emptyJob, next_jid := 2 }

/-- A table holding one running job. -/
def oneRunningJobs : ShellJobs :=
  { job_list := busyJob :: List.replicate (MAX_JOBS - 1) emptyJob, next_jid := 2 }

/-- The line "ls | cd". -/
def lineLsPipeCd : List Char := ['l', 's', ' ', '|', ' ', 'c', 'd']

/-- The line "cd | ls". -/
def lineCdPipeLs : List Char := ['c', 'd', ' ', '|', ' ', 'l', 's']

/-- The line "echo a|b", whose `|` is embedded in the word "a|b". -/
def lineEmbeddedPipe : List Char := ['e', 'c', 'h', 'o', ' ', 'a', '|', 'b']

/-- The line "echo hi&", whose `&` is attached to the word "hi". -/
def lineAttachedAmp : List Char := ['e', 'c', 'h', 'o', ' ', 'h', 'i', '&']

/-- A line containing a character outside `d` is not all-`d`. -/
theorem allIn_eq_false_of_mem (d s : List Char) (c : Char) (hc : c ∈ s)
    (hcd : c ∉ d) : allIn d s = false := by
  simp only [allIn]
  rw [List.all_eq_false]
  exact ⟨c, hc, by simpa using hcd⟩

/-- A line containing a `|` character is split by `splitPipe`. -/
theorem splitPipe_some_of_mem (s : List Char) (h : '|' ∈ s) :
    ∃ p, splitPipe s = some p := by
  induction s with
  | nil => cases h
  | cons c cs ih =>
    by_cases hc : c = '|'
    · exact ⟨([], cs), by simp [splitPipe, hc]⟩
    · have hmem : '|' ∈ cs := by
        rcases List.mem_cons.mp h with h1 | h1
        · exact absurd h1.symm hc
        · exact h1
      obtain ⟨p, hp⟩ := ih hmem
      exact ⟨(c :: p.1, p.2), by simp [splitPipe, hc, hp]⟩

/-- `splitPipe` cuts exactly at the first `|` character, regardless of
token boundaries. -/
theorem splitPipe_append (a b : List Char) (h : '|' ∉ a) :
    splitPipe (a ++ '|' :: b) = some (a, b) := by
  induction a with
  | nil => simp [splitPipe]
  | cons c cs ih =>
    have hc : ¬c = '|' := fun hcc => h (by simp [hcc])
    have hcs : '|' ∉ cs := fun hm => h (List.mem_cons_of_mem _ hm)
    simp [splitPipe, hc, ih hcs]

/-- Trailing-whitespace trimming leaves a line ending in `&` alone. -/
theorem rstripSet_concat_amp (d : List Char) (s : List Char) (hd : '&' ∉ d) :
    rstripSet d (s ++ ['&']) = s ++ ['&'] := by
  simp only [rstripSet, List.reverse_append, List.reverse_cons, List.reverse_nil,
    List.nil_append, List.singleton_append]
  rw [List.dropWhile_cons_of_neg (by simpa using hd)]
  simp

/-- A line whose final character is `&` always sets the background flag,
whatever precedes the `&`. -/
theorem stripBackground_concat_amp (s : List Char) :
    (stripBackground (s ++ ['&'])).2 = true := by
  simp only [stripBackground]
  rw [rstripSet_concat_amp wsDelim s (by decide)]
  rw [show (s ++ ['&']).getLast? = some '&' from List.getLast?_concat _]
  simp

/-- Claim C2 counterexample: in the line "ls | cd" the right-hand
command is the built-in `cd`, yet `execute_pipeline` does not reject the
line — it forks both pipeline children (the built-in check looks only at
the first token). -/
theorem right_builtin_pipe_forks_cex :
    execPipelineDecision lineLsPipeCd =
      .runPipe [['l', 's']] none [['c', 'd']] none false ∧
    isBuiltinTok (some ['c', 'd']) = true ∧
    forkCount (execPipelineDecision lineLsPipeCd) = 2 := by
  refine ⟨by decide, by decide, by decide⟩

/-- Claim C2 (amended): when the first token of the (background-
stripped) line is one of the six built-ins and the line contains a `|`,
`execute_pipeline` rejects it with the builtin-in-pipeline error and
forks no child; a built-in in the right-hand command only is not
detected. -/
theorem left_builtin_pipe_rejected (s0 : List Char)
    (hb : isBuiltinTok (firstTok (stripBackground s0).1) = true)
    (hp : '|' ∈ (stripBackground s0).1) :
    execPipelineDecision s0 =
      .builtinPipeErr ((firstTok (stripBackground s0).1).getD []) ∧
    forkCount (execPipelineDecision s0) = 0 := by
  have hall : allIn wsDelim (stripBackground s0).1 = false :=
    allIn_eq_false_of_mem _ _ '|' hp (by decide)
  obtain ⟨p, hsp⟩ := splitPipe_some_of_mem _ hp
  have hd : execPipelineDecision s0 =
      .builtinPipeErr ((firstTok (stripBackground s0).1).getD []) := by
    simp only [execPipelineDecision, hall, Bool.false_eq_true, if_false, hsp, hb, if_true]
  exact ⟨hd, by rw [hd]; rfl⟩

/-- Witness for `left_builtin_pipe_rejected` at the line "cd | ls". -/
theorem left_builtin_pipe_rejected_witness :
    execPipelineDecision lineCdPipeLs =
      .builtinPipeErr ((firstTok (stripBackground lineCdPipeLs).1).getD []) ∧
    forkCount (execPipelineDecision lineCdPipeLs) = 0 :=
  left_builtin_pipe_rejected lineCdPipeLs (by decide) (by decide)

/-- Claim C6 counterexample: the `|` embedded in the word "a|b" of
"echo a|b" is treated as a pipe split, and the `&` attached to the word
"hi" in "echo hi&" sets the background flag — both operators act without
being standalone tokens. -/
theorem operators_embedded_take_effect_cex :
    execPipelineDecision lineEmbeddedPipe =
      .runPipe [['e', 'c', 'h', 'o'], ['a']] none [['b']] none false ∧
    (stripBackground lineAttachedAmp).2 = true := by
  refine ⟨by decide, by decide⟩

/-- Claim C6 (amended): `<` and `>` take effect only as standalone
whitespace-delimited tokens (any other token, whatever characters it
contains, is an ordinary argument), while `|` splits the line at its
first occurrence even inside a word and a final `&` character sets the
background flag even when attached to the last word. -/
theorem operator_token_discipline (t a b s : List Char) (ts : List (List Char))
    (i : Nat) (args : List (List Char)) (inF outF : Option (List Char))
    (h1 : t ≠ ['<']) (h2 : t ≠ ['>']) (hi : i < MAX_ARGS - 1) (h3 : '|' ∉ a) :
    parseLoop (t :: ts) i args inF outF = parseLoop ts (i + 1) (args ++ [t]) inF outF ∧
    splitPipe (a ++ '|' :: b) = some (a, b) ∧
    (stripBackground (s ++ ['&'])).2 = true := by
  refine ⟨?_, splitPipe_append a b h3, stripBackground_concat_amp s⟩
  rw [parseLoop.eq_def]
  simp only
  rw [if_neg (Nat.not_le.mpr hi), if_neg h1, if_neg h2]

/-- Witness for `operator_token_discipline`: the token "a|b" is an
ordinary argument for `parse_command`, "echo a" ++ "|" ++ "b" splits at
the embedded bar, and "x&" is backgrounded. -/
theorem operator_token_discipline_witness :
    parseLoop [['a', '|', 'b']] 0 [] none none =
      parseLoop [] 1 [['a', '|', 'b']] none none ∧
    splitPipe (['e', 'c', 'h', 'o', ' ', 'a'] ++ '|' :: ['b']) =
      some (['e', 'c', 'h', 'o', ' ', 'a'], ['b']) ∧
    (stripBackground (['x'] ++ ['&'])).2 = true :=
  operator_token_discipline ['a', '|', 'b'] ['e', 'c', 'h', 'o', ' ', 'a'] ['b'] ['x']
    [] 0 [] none none (by decide) (by decide) (by decide) (by decide)

/-- Claim C1 (code bug): when the blocking wait of a freshly launched
foreground command returns with the child stopped, the job table is
left exactly as it was — the Stopped update lands only in the transient
stack struct, which `execute_single_command` then discards.  At the
failing input (`sleep 100` stopped by Ctrl-Z from the initial state) the
table holds no entry for the child's pgid, and the next prompt's
notification drain prints nothing. -/
theorem fg_stop_loses_job :
    (∀ (s : ShellJobs) (p : Int) (cmd : String),
      fg_command_wait s p cmd .stopped = s) ∧
    fg_command_wait initShellJobs 100 "sleep 100" .stopped = initShellJobs ∧
    get_job_by_pgid (fg_command_wait initShellJobs 100 "sleep 100" .stopped) 100 = none ∧
    (check_jobs_status (fg_command_wait initShellJobs 100 "sleep 100" .stopped)).2 = [] := by
  refine ⟨?_, by decide, by decide, by decide⟩
  intro s p cmd
  simp only [fg_command_wait, put_job_in_foreground_transient,
    wait_for_job_transient]
  split
  · rfl
  · split
    · rfl
    · rfl

/-- No slot can be free in a table whose every slot is live. -/
theorem placeInFirstFree_none (nj : job_t) (l : List job_t)
    (h : ∀ j ∈ l, j.state ≠ .JOB_STATE_INVALID) : placeInFirstFree nj l = none := by
  induction l with
  | nil => rfl
  | cons x xs ih =>
    have hx := h x (List.mem_cons_self x xs)
    simp [placeInFirstFree, hx, ih (fun j hj => h j (List.mem_cons_of_mem x hj))]

/-- Claim C3 counterexample: with all 32 slots occupied by Running
jobs, a background launch still forks the child (the `fork()` at line
693 precedes `add_job`); only afterwards does `add_job` fail with the
max-jobs message. -/
theorem jobs_full_still_forks_cex :
    (background_launch fullJobs true 100 "sleep 1" true).forked = true ∧
    (background_launch fullJobs true 100 "sleep 1" true).jobs = fullJobs ∧
    (background_launch fullJobs true 100 "sleep 1" true).events = [.errMaxJobs] := by
  refine ⟨by decide, by decide, by decide⟩

/-- Claim C3 (amended): when every slot is occupied by a live (Running
or Stopped) entry, an interactive background launch reports the
jobs-full error and `add_job` fails leaving the table unchanged — but
the child has already been forked and runs untracked. -/
theorem jobs_full_add_fails_but_forks (s : ShellJobs) (pgid : Int) (cmd : String)
    (ok : Bool) (hb : ∀ j ∈ s.job_list, j.state ≠ .JOB_STATE_INVALID)
    (hp : 0 < pgid) :
    (background_launch s true pgid cmd ok).forked = true ∧
    (background_launch s true pgid cmd ok).jobs = s ∧
    (background_launch s true pgid cmd ok).events = [.errMaxJobs] ∧
    onStderr .errMaxJobs = true := by
  have hple : ¬pgid ≤ 0 := by omega
  have hadd : add_job s pgid cmd .JOB_STATE_RUNNING ok = (s, none, [.errMaxJobs]) := by
    simp [add_job, hple, placeInFirstFree_none _ _ hb]
  refine ⟨?_, ?_, ?_, rfl⟩ <;> simp [background_launch, hadd, hp]

/-- Witness for `jobs_full_add_fails_but_forks` at the full table. -/
theorem jobs_full_add_fails_but_forks_witness :
    (background_launch fullJobs true 77 "cat" true).forked = true ∧
    (background_launch fullJobs true 77 "cat" true).jobs = fullJobs ∧
    (background_launch fullJobs true 77 "cat" true).events = [.errMaxJobs] ∧
    onStderr .errMaxJobs = true :=
  jobs_full_add_fails_but_forks fullJobs 77 "cat" true (by decide) (by decide)

/-- Claim C4 counterexample: in a non-interactive shell the
second-fork-failure path closes the pipe ends and reaps the first child
but never sends SIGKILL to the pipeline group. -/
theorem fork2_fail_noninteractive_skips_kill_cex :
    pipeline_fork2_fail_cleanup false 100 =
      [.closeReadEnd, .closeWriteEnd, .reapFirstChild] ∧
    CleanupAct.killGroup 100 ∉ pipeline_fork2_fail_cleanup false 100 := by
  refine ⟨by decide, by decide⟩

/-- Claim C4 (amended): when the second fork of a pipeline fails, the
parent closes both pipe file descriptors and reaps the first child in
every invocation, but sends SIGKILL to the pipeline's process group
only when the shell is interactive (and the pgid is positive). -/
theorem fork2_fail_cleanup_spec (interactive : Bool) (pgid : Int) :
    CleanupAct.closeReadEnd ∈ pipeline_fork2_fail_cleanup interactive pgid ∧
    CleanupAct.closeWriteEnd ∈ pipeline_fork2_fail_cleanup interactive pgid ∧
    CleanupAct.reapFirstChild ∈ pipeline_fork2_fail_cleanup interactive pgid ∧
    (CleanupAct.killGroup pgid ∈ pipeline_fork2_fail_cleanup interactive pgid ↔
      (0 < pgid ∧ interactive = true)) := by
  by_cases hp : 0 < pgid ∧ interactive = true
  · simp [pipeline_fork2_fail_cleanup, hp]
  · simp [pipeline_fork2_fail_cleanup, hp]

/-- Claim C5 counterexample: `bg` on a job that is already Running still
prints the "[jid] cmd &" line — line 686 prints it before
`put_job_in_background` detects the no-op. -/
theorem bg_running_still_announces_cex :
    (bg_builtin oneRunningJobs 1 true).2 =
      [.bgResumeLine 1 (some "sleep 1000"), .bgAlreadyRunning 1] ∧
    get_job_by_jid oneRunningJobs 1 = some busyJob ∧
    busyJob.state = .JOB_STATE_RUNNING := by
  refine ⟨by decide, by decide, by decide⟩

/-- Writing a slot's own current value back through its jid leaves the
table unchanged. -/
theorem updateByJid_self (jid : Nat) (l : List job_t) (j : job_t)
    (h : get_job_by_jid_list jid l = some j) : updateByJid jid j l = l := by
  induction l with
  | nil => simp [get_job_by_jid_list] at h
  | cons x xs ih =>
    by_cases hx : x.state ≠ .JOB_STATE_INVALID ∧ x.jid = jid
    · rw [get_job_by_jid_list, if_pos hx] at h
      rw [updateByJid, if_pos hx]
      simp at h
      rw [h]
    · rw [get_job_by_jid_list, if_neg hx] at h
      rw [updateByJid, if_neg hx, ih h]

/-- Claim C5 (amended): for a tracked job, `bg %<jid>` always prints the
"[jid] cmd &" line first; when the job is already Running it then
reports the no-op and changes neither the job table nor any state, and
sends no SIGCONT; when the job is Stopped (and the SIGCONT kill
succeeds) it sets the state to Running, marks it notified, and the
SIGCONT is sent to the job's process group. -/
theorem bg_builtin_semantics (s : ShellJobs) (jid : Nat) (j : job_t)
    (kill_ok : Bool) (h : get_job_by_jid s jid = some j) :
    (j.state = .JOB_STATE_RUNNING →
      bg_builtin s jid kill_ok =
        (s, [.bgResumeLine j.jid j.command, .bgAlreadyRunning j.jid])) ∧
    (j.state = .JOB_STATE_STOPPED → kill_ok = true →
      bg_builtin s jid kill_ok =
        (⟨updateByJid jid { j with state := .JOB_STATE_RUNNING, notified := true }
            s.job_list, s.next_jid⟩,
          [.bgResumeLine j.jid j.command, .sigcontSent j.pgid])) := by
  obtain ⟨l, n⟩ := s
  constructor
  · intro hst
    have hself : updateByJid jid j l = l := updateByJid_self jid l j h
    simp [bg_builtin, h, put_job_in_background, hst, hself]
  · intro hst hk
    subst hk
    simp [bg_builtin, h, put_job_in_background, hst]

/-- Witness for `bg_builtin_semantics`: resuming the concrete stopped
job sends SIGCONT to pgid 70 and sets it Running. -/
theorem bg_builtin_semantics_witness :
    bg_builtin oneStoppedJobs 1 true =
      (⟨updateByJid 1 { stoppedJob with state := .JOB_STATE_RUNNING, notified := true }
          oneStoppedJobs.job_list, oneStoppedJobs.next_jid⟩,
        [.bgResumeLine stoppedJob.jid stoppedJob.command,
          .sigcontSent stoppedJob.pgid]) :=
  (bg_builtin_semantics oneStoppedJobs 1 stoppedJob true (by decide)).2 rfl rfl

/-- Claim C7 (confirmed): `cd` with no argument targets the value of
HOME (the working directory becomes HOME when `chdir` succeeds and is
unchanged when it fails); with more than one argument it reports the
too-many-arguments error on standard error and changes nothing; with no
argument and HOME unset it reports on standard error and the working
directory is unchanged. -/
theorem cd_builtin_spec (home_dir cwd d1 d2 : String) (rest : List String)
    (chdir_ok : String → Bool) :
    (cd_builtin ["cd"] (some home_dir) cwd chdir_ok none none =
      (if chdir_ok home_dir then home_dir else cwd,
        if chdir_ok home_dir then [] else [.errCdFailed])) ∧
    (cd_builtin ("cd" :: d1 :: d2 :: rest) (some home_dir) cwd chdir_ok none none =
      (cwd, [.errCdTooMany])) ∧
    (cd_builtin ("cd" :: d1 :: d2 :: rest) none cwd chdir_ok none none =
      (cwd, [.errCdTooMany])) ∧
    (cd_builtin ["cd"] none cwd chdir_ok none none = (cwd, [.errCdHomeUnset])) ∧
    onStderr .errCdTooMany = true ∧ onStderr .errCdHomeUnset = true := by
  refine ⟨?_, by simp [cd_builtin], by simp [cd_builtin], by simp [cd_builtin], rfl, rfl⟩
  by_cases hc : chdir_ok home_dir <;> simp [cd_builtin, hc]

/-- Claim C10 (confirmed): if `put_job_in_background` attempts to
resume a stopped job and the SIGCONT kill fails, the job's state is
reverted to Stopped — exactly the state it had before the call — and
the failure is reported. -/
theorem bg_kill_fail_reverts_state (j : job_t) (h : j.state = .JOB_STATE_STOPPED) :
    (put_job_in_background j true false).1.state = .JOB_STATE_STOPPED ∧
    (put_job_in_background j true false).1.state = j.state ∧
    (put_job_in_background j true false).2 = [.errKillSigcont] := by
  simp [put_job_in_background, h]

/-- Witness for `bg_kill_fail_reverts_state` at the concrete stopped
job. -/
theorem bg_kill_fail_reverts_state_witness :
    (put_job_in_background stoppedJob true false).1.state = .JOB_STATE_STOPPED ∧
    (put_job_in_background stoppedJob true false).1.state = stoppedJob.state ∧
    (put_job_in_background stoppedJob true false).2 = [.errKillSigcont] :=
  bg_kill_fail_reverts_state stoppedJob rfl

/-- A step either assigns no jid, or assigns exactly the current
`next_jid` and increments the counter. -/
theorem jobStep_spec (s : ShellJobs) (op : JobOp) :
    (jobStep s op).2 = none ∨
    ((jobStep s op).2 = some s.next_jid ∧
      (jobStep s op).1.next_jid = s.next_jid + 1) := by
  cases op with
  | add pgid cmd st ok =>
    simp only [jobStep, add_job]
    split
    · exact Or.inl rfl
    · split
      · exact Or.inl rfl
      · split
        · exact Or.inr ⟨rfl, rfl⟩
        · exact Or.inl rfl
  | remove pgid => exact Or.inl rfl
  | markExited pgid => exact Or.inl rfl
  | markStopped pgid => exact Or.inl rfl
  | drain => exact Or.inl rfl

/-- The jid counter never decreases. -/
theorem jobStep_next_jid_le (s : ShellJobs) (op : JobOp) :
    s.next_jid ≤ (jobStep s op).1.next_jid := by
  cases op with
  | add pgid cmd st ok =>
    simp only [jobStep, add_job]
    split
    · exact le_refl _
    · split
      · exact le_refl _
      · split
        · exact Nat.le_succ _
        · exact Nat.le_succ _
  | remove pgid => exact le_refl _
  | markExited pgid => exact le_refl _
  | markStopped pgid => exact le_refl _
  | drain => exact le_refl _

/-- Every jid assigned during a run is at least the starting counter. -/
theorem runOps_mem_ge (ops : List JobOp) :
    ∀ (s : ShellJobs) (n : Nat), n ∈ (runOps s ops).2 → s.next_jid ≤ n := by
  induction ops with
  | nil => intro s n hn; simp [runOps] at hn
  | cons op ops ih =>
    intro s n hn
    simp only [runOps] at hn
    rw [List.mem_append] at hn
    rcases hn with hn | hn
    · rcases jobStep_spec s op with hz | ⟨hz, _⟩
      · rw [hz] at hn; simp at hn
      · rw [hz] at hn
        simp at hn
        omega
    · exact le_trans (jobStep_next_jid_le s op) (ih _ n hn)

/-- The jids assigned during a run are strictly increasing in order of
assignment. -/
theorem runOps_pairwise (ops : List JobOp) :
    ∀ s : ShellJobs, ((runOps s ops).2).Pairwise (fun a b => a < b) := by
  induction ops with
  | nil => intro s; simp [runOps]
  | cons op ops ih =>
    intro s
    simp only [runOps]
    rcases jobStep_spec s op with hz | ⟨hz, hnext⟩
    · rw [hz]
      simpa using ih (jobStep s op).1
    · rw [hz]
      simp only [Option.toList_some, List.singleton_append]
      refine List.Pairwise.cons ?_ (ih _)
      intro n hn
      have h1 := runOps_mem_ge ops (jobStep s op).1 n hn
      omega

/-- Claim C8 (confirmed): across any sequence of job-table operations
from the initial state, each successful `add_job` assigns a jid
strictly greater than every previously assigned jid, and no jid is ever
assigned twice — even though slots are reused after removal. -/
theorem jids_strictly_increasing (ops : List JobOp) :
    ((runOps initShellJobs ops).2).Pairwise (fun a b => a < b) ∧
    ((runOps initShellJobs ops).2).Nodup := by
  have h := runOps_pairwise ops initShellJobs
  exact ⟨h, h.imp fun hab => Nat.ne_of_lt hab⟩

/-- Unfolding of the command-string invariant over a cons cell. -/
theorem JobsInv_cons (x : job_t) (xs : List job_t) :
    JobsInv (x :: xs) ↔
      (x.state ≠ .JOB_STATE_INVALID → x.command ≠ none) ∧ JobsInv xs := by
  simp [JobsInv, List.forall_mem_cons]

/-- Filling a free slot preserves the invariant when the new job
satisfies it. -/
theorem placeInFirstFree_inv (nj : job_t) (l l2 : List job_t) (hl : JobsInv l)
    (hnj : nj.state ≠ .JOB_STATE_INVALID → nj.command ≠ none)
    (h : placeInFirstFree nj l = some l2) : JobsInv l2 := by
  induction l generalizing l2 with
  | nil => simp [placeInFirstFree] at h
  | cons x xs ih =>
    rw [JobsInv_cons] at hl
    by_cases hx : x.state = .JOB_STATE_INVALID
    · rw [placeInFirstFree.eq_def] at h
      simp only [if_pos hx] at h
      cases h
      rw [JobsInv_cons]
      exact ⟨hnj, hl.2⟩
    · rw [placeInFirstFree.eq_def] at h
      simp only [if_neg hx] at h
      rcases Option.map_eq_some'.mp h with ⟨l3, h3, rfl⟩
      rw [JobsInv_cons]
      exact ⟨hl.1, ih l3 hl.2 h3⟩

/-- Filling a free slot with another free value keeps the live-slot
count unchanged. -/
theorem placeInFirstFree_count (nj : job_t) (hnj : nj.state = .JOB_STATE_INVALID)
    (l l2 : List job_t) (h : placeInFirstFree nj l = some l2) :
    activeCount l2 = activeCount l := by
  induction l generalizing l2 with
  | nil => simp [placeInFirstFree] at h
  | cons x xs ih =>
    by_cases hx : x.state = .JOB_STATE_INVALID
    · rw [placeInFirstFree.eq_def] at h
      simp only [if_pos hx] at h
      cases h
      simp [activeCount, List.countP_cons, hnj, hx]
    · rw [placeInFirstFree.eq_def] at h
      simp only [if_neg hx] at h
      rcases Option.map_eq_some'.mp h with ⟨l3, h3, rfl⟩
      have hcount := ih l3 h3
      simp only [activeCount, List.countP_cons] at hcount ⊢
      omega

/-- Removal frees one slot and preserves the invariant. -/
theorem removeFirst_inv (pgid : Int) (l : List job_t) (hl : JobsInv l) :
    JobsInv (removeFirst pgid l).1 := by
  induction l with
  | nil => simpa [removeFirst] using hl
  | cons x xs ih =>
    rw [JobsInv_cons] at hl
    rw [removeFirst.eq_def]
    simp only
    split
    · rw [JobsInv_cons]
      exact ⟨by simp [emptyJob], hl.2⟩
    · show JobsInv (x :: (removeFirst pgid xs).1)
      rw [JobsInv_cons]
      exact ⟨hl.1, ih hl.2⟩

/-- Updating the first live slot with pgid `pgid` preserves the
invariant when the update does. -/
theorem mapFirstActive_inv (pgid : Int) (f : job_t → job_t) (l : List job_t)
    (hl : JobsInv l)
    (hf : ∀ j : job_t, j.state ≠ .JOB_STATE_INVALID → j.command ≠ none →
      (f j).state ≠ .JOB_STATE_INVALID → (f j).command ≠ none) :
    JobsInv (mapFirstActive pgid f l) := by
  induction l with
  | nil => simpa [mapFirstActive] using hl
  | cons x xs ih =>
    rw [JobsInv_cons] at hl
    rw [mapFirstActive.eq_def]
    simp only
    split
    · rename_i hx
      rw [JobsInv_cons]
      exact ⟨hf x hx.1 (hl.1 hx.1), hl.2⟩
    · rw [JobsInv_cons]
      exact ⟨hl.1, ih hl.2⟩

/-- The notification sweep preserves the per-slot invariant. -/
theorem drainSlot_inv (j : job_t)
    (hj : j.state ≠ .JOB_STATE_INVALID → j.command ≠ none) :
    (drainSlot j).1.state ≠ .JOB_STATE_INVALID →
      (drainSlot j).1.command ≠ none := by
  simp only [drainSlot]
  split
  · rename_i hc
    intro hs
    exact absurd hc.1 hs
  · split
    · rename_i hc hc2
      intro _
      exact hj (by rw [hc2.1]; exact fun hcon => job_state_t.noConfusion hcon)
    · exact hj

/-- The notification sweep preserves the invariant over the table. -/
theorem drainAll_inv (l : List job_t) (hl : JobsInv l) :
    JobsInv (drainAll l).1 := by
  induction l with
  | nil => simpa [drainAll] using hl
  | cons x xs ih =>
    rw [JobsInv_cons] at hl
    show JobsInv ((drainSlot x).1 :: (drainAll xs).1)
    rw [JobsInv_cons]
    exact ⟨drainSlot_inv x hl.1, ih hl.2⟩

/-- `add_job` preserves the invariant. -/
theorem add_job_inv (s : ShellJobs) (pgid : Int) (cmd : String)
    (st : job_state_t) (ok : Bool) (hl : JobsInv s.job_list) :
    JobsInv (add_job s pgid cmd st ok).1.job_list := by
  simp only [add_job]
  split
  · exact hl
  · split
    · exact hl
    · rename_i l2 heq
      have h2 : JobsInv l2 :=
        placeInFirstFree_inv _ _ _ hl (by cases ok <;> simp) heq
      split
      · exact h2
      · exact h2

/-- Every job-table operation preserves the invariant. -/
theorem jobStep_inv (s : ShellJobs) (op : JobOp) (hl : JobsInv s.job_list) :
    JobsInv (jobStep s op).1.job_list := by
  cases op with
  | add pgid cmd st ok => exact add_job_inv s pgid cmd st ok hl
  | remove pgid => exact removeFirst_inv pgid s.job_list hl
  | markExited pgid =>
    exact mapFirstActive_inv _ _ _ hl (fun j h1 h2 h3 => absurd rfl h3)
  | markStopped pgid =>
    refine mapFirstActive_inv _ _ _ hl ?_
    intro j h1 h2 h3
    by_cases hc : j.state ≠ .JOB_STATE_STOPPED ∨ j.notified = false
    · simpa [hc] using h2
    · simpa [hc] using h2
  | drain => exact drainAll_inv s.job_list hl

/-- Runs from an invariant-satisfying state stay invariant. -/
theorem runOps_inv (ops : List JobOp) : ∀ s : ShellJobs, JobsInv s.job_list →
    JobsInv ((runOps s ops).1).job_list := by
  induction ops with
  | nil => intro s h; simpa [runOps] using h
  | cons op ops ih =>
    intro s h
    simp only [runOps]
    exact ih _ (jobStep_inv s op h)

/-- The initial table satisfies the invariant. -/
theorem initShellJobs_inv : JobsInv initShellJobs.job_list := by
  intro j hj h
  simp only [initShellJobs] at hj
  rw [List.eq_of_mem_replicate hj] at h
  exact absurd rfl h

/-- A failed `strdup` makes `add_job` return failure with the touched
slot rolled back to the free state (the live-slot count is unchanged). -/
theorem add_job_strdup_fail (s : ShellJobs) (pgid : Int) (cmd : String)
    (st : job_state_t) :
    (add_job s pgid cmd st false).2.1 = none ∧
    activeCount (add_job s pgid cmd st false).1.job_list = activeCount s.job_list := by
  simp only [add_job]
  split
  · exact ⟨rfl, rfl⟩
  · split
    · exact ⟨rfl, rfl⟩
    · rename_i l2 heq
      refine ⟨by simp, ?_⟩
      exact placeInFirstFree_count _ (by simp) _ _ heq

/-- Claim C9 (confirmed): every job-table operation (add, remove,
SIGCHLD marks, notification drain) preserves the invariant that each
slot in a live (Running or Stopped) state holds a command string; and
`add_job` with a failed command duplication returns failure with the
slot rolled back to the free state. -/
theorem live_slots_have_command (ops : List JobOp) (s : ShellJobs) (pgid : Int)
    (cmd : String) (st : job_state_t) :
    JobsInv ((runOps initShellJobs ops).1).job_list ∧
    (add_job s pgid cmd st false).2.1 = none ∧
    activeCount (add_job s pgid cmd st false).1.job_list = activeCount s.job_list :=
  ⟨runOps_inv ops initShellJobs initShellJobs_inv,
    (add_job_strdup_fail s pgid cmd st).1,
    (add_job_strdup_fail s pgid cmd st).2⟩

end Cash
